import Mathlib

/-!
# tunnelserver: the HTTP gateway of `server.js`

A shallow embedding of `src/server.js`: the requested-id validation (the regular
expression tested on line 127), the Koa handlers and middlewares, and the
`request` / `upgrade` dispatch of the HTTP server.

JavaScript strings are embedded as Lean strings.  The validation only accepts
ASCII characters, so on every accepted string the number of UTF-16 code units
and the number of characters coincide.
-/

namespace TunnelServer

/-! ## Regular expressions (the fragment used by `server.js`) -/

/-- Regular expressions over characters: a character class, concatenation,
alternation and the bounded quantifier `a{lo,hi}`. -/
inductive Regex where
  | cls (p : Char → Bool)
  | seq (a b : Regex)
  | alt (a b : Regex)
  | rep (a : Regex) (lo hi : Nat)

/-- Backtracking semantics of `a{lo,hi}` (greedy): `f` gives, for an input, the
remainders left after one match of `a`; the result lists the remainders left
after between `lo` and `hi` consecutive matches. -/
def repRun (f : List Char → List (List Char)) : Nat → Nat → List Char → List (List Char)
  | lo, 0, s => if lo = 0 then [s] else []
  | lo, hi + 1, s => (f s).flatMap (repRun f (lo - 1) hi) ++ (if lo = 0 then [s] else [])

/-- Backtracking matcher: all remainders of the input left after a match of the
expression at the start of the input, in the order a backtracking engine tries
them. -/
def Regex.run : Regex → List Char → List (List Char)
  | .cls p, s =>
    match s with
    | [] => []
    | c :: cs => if p c then [cs] else []
  | .seq a b, s => (a.run s).flatMap b.run
  | .alt a b, s => a.run s ++ b.run s
  | .rep a lo hi, s => repRun a.run lo hi s

/-- The method `/^r$/.test(s)`: some match of `r` consumes the whole string. -/
def Regex.test (r : Regex) (s : String) : Bool :=
  (r.run s.toList).any List.isEmpty

/-- The class `[a-z0-9]`. -/
def lowerAlnum (c : Char) : Bool :=
  (decide ('a'.toNat ≤ c.toNat) && decide (c.toNat ≤ 'z'.toNat)) ||
    (decide ('0'.toNat ≤ c.toNat) && decide (c.toNat ≤ '9'.toNat))

/-- The class `[a-z0-9\-]`. -/
def lowerAlnumHyphen (c : Char) : Bool :=
  lowerAlnum c || c == '-'

/-- The expression `(?:[a-z0-9][a-z0-9\-]{4,63}[a-z0-9]|[a-z0-9]{4,63})` of line 127. -/
def subdomainRegex : Regex :=
  .alt
    (.seq (.cls lowerAlnum) (.seq (.rep (.cls lowerAlnumHyphen) 4 63) (.cls lowerAlnum)))
    (.rep (.cls lowerAlnum) 4 63)

/-- The validation of line 127: `/^(?:...)$/.test(reqId)`. -/
def validReqId (reqId : String) : Bool :=
  subdomainRegex.test reqId

/-! ## Character and string properties used to state the id format -/

/-- A lowercase ASCII letter. -/
def IsLowerLetter (c : Char) : Prop := 'a'.toNat ≤ c.toNat ∧ c.toNat ≤ 'z'.toNat

/-- An uppercase ASCII letter. -/
def IsUpperLetter (c : Char) : Prop := 'A'.toNat ≤ c.toNat ∧ c.toNat ≤ 'Z'.toNat

/-- An ASCII digit. -/
def IsDigit (c : Char) : Prop := '0'.toNat ≤ c.toNat ∧ c.toNat ≤ '9'.toNat

instance (c : Char) : Decidable (IsLowerLetter c) := by
  unfold IsLowerLetter; infer_instance

instance (c : Char) : Decidable (IsUpperLetter c) := by
  unfold IsUpperLetter; infer_instance

instance (c : Char) : Decidable (IsDigit c) := by
  unfold IsDigit; infer_instance

/-- A string of 4 to 63 characters whose first and last characters are lowercase
letters or digits and whose interior characters are lowercase letters, digits or
hyphens. -/
def HostnameShaped (s : String) : Prop :=
  4 ≤ s.length ∧ s.length ≤ 63 ∧
    ∃ c mid d, s.toList = c :: (mid ++ [d]) ∧
      (IsLowerLetter c ∨ IsDigit c) ∧ (IsLowerLetter d ∨ IsDigit d) ∧
      ∀ x ∈ mid, IsLowerLetter x ∨ IsDigit x ∨ x = '-'

/-! ## JavaScript values and strings -/

/-- JavaScript values held by the options object and the query string, as far
as the gateway inspects them. -/
inductive JsValue where
  | undefined
  | null
  | bool (b : Bool)
  | number (n : Int)
  | string (s : String)
  deriving DecidableEq, Repr

/-- Truthiness of a value, as tested by `if (v)`. -/
def JsValue.truthy : JsValue → Bool
  | .undefined => false
  | .null => false
  | .bool b => b
  | .number n => n != 0
  | .string s => s != ""

/-- Truthiness of a value that is a string, or `undefined` / `null` (embedded as
`none`): only a non-empty string is truthy. -/
def truthyStr : Option String → Bool
  | none => false
  | some s => s != ""

/-- The pieces of a list of characters between the occurrences of `sep`. -/
def splitChars (sep : Char) : List Char → List (List Char)
  | [] => [[]]
  | c :: cs =>
    if c = sep then [] :: splitChars sep cs
    else
      match splitChars sep cs with
      | [] => [[c]]
      | p :: ps => (c :: p) :: ps

/-- The method `s.split("/")`. -/
def splitSlash (s : String) : List String :=
  (splitChars '/' s.toList).map String.mk

/-! ## Collaborators of the gateway -/

/-- The value of `manager.stats`. -/
structure Stats where
  idsUsed : Nat
  portsEngaged : Nat
  deriving DecidableEq, Repr

/-- The value of `client.stats()`. -/
structure ClientStats where
  connectedSockets : Nat
  deriving DecidableEq, Repr

/-- The value of `process.memoryUsage()`. -/
structure MemoryUsage where
  rss : Nat
  heapTotal : Nat
  heapUsed : Nat
  external : Nat
  deriving DecidableEq, Repr

/-- Modelled from the spec: the connection info that `newClient` resolves to
(`./lib/ClientManager` is not part of the sources): `{id, port, maxConnections}`,
to which the gateway adds `url`. -/
structure Info where
  id : String
  port : Nat
  maxConnections : Nat
  url : Option String := none
  deriving DecidableEq, Repr

/-- A thrown value: the HTTP error of `ctx.throw(status)`, or any other error. -/
inductive Thrown where
  | httpError (status : Nat)
  | error (message : String)
  deriving DecidableEq, Repr

/-- The interface of the Client Manager used by the gateway, over a manager
state `M` and client handles `C`.  `newClient` is asynchronous; awaiting it either
yields the connection info or throws. -/
structure ClientManager (M C : Type) where
  stats : M → Stats
  getClient : M → String → Option C
  removeClient : M → String → M
  newClient : M → String → M × Except Thrown Info

/-- The calls the gateway makes on its collaborators, in order. -/
inductive Call (C : Type) where
  | stats
  | getClient (id : String)
  | removeClient (id : String)
  | newClient (id : String)
  | clientStats (client : C)
  | handleRequest (client : C)
  | handleUpgrade (client : C)
  | appCallback
  | resEnd (statusCode : Nat) (body : String)
  | socketDestroy
  deriving DecidableEq, Repr

/-- The options object `opt`. -/
structure Options where
  domain : Option String := none
  landing : Option String := none
  secure : JsValue := .undefined
  allowDelete : JsValue := .undefined

/-- The constant `landingPage`. -/
def landingPage (opt : Options) : String :=
  if truthyStr opt.landing then opt.landing.getD "" else "https://localtunnel.github.io/www/"

/-- The constant `schema`. -/
def schema (opt : Options) : String :=
  if opt.secure.truthy then "https" else "http"

/-- The setting `validHosts`. -/
def validHosts (opt : Options) : Option (List String) :=
  if truthyStr opt.domain then some [opt.domain.getD ""] else none

/-! ## Koa context -/

/-- Response bodies assigned by the handlers.  `redirectPage url` stands for the
body that `ctx.redirect(url)` writes: an HTML anchor to `url` when the request
accepts HTML, the plain text "Redirecting to url." otherwise. -/
inductive Body where
  | status (idsUsed portsEngaged : Nat) (mem : MemoryUsage)
  | tunnelStatus (connected_sockets : Nat)
  | deleteStatus (delete_status : String)
  | message (message : String)
  | info (info : Info)
  | redirectPage (url : String)
  deriving DecidableEq, Repr

/-- The part of the Koa context the handlers write: the response status (404
until something is assigned), whether it was assigned explicitly, the body, and
the url given to `ctx.redirect`, from which Koa computes the `Location` header
(the referrer for "back", otherwise the url, encoded). -/
structure Ctx where
  status : Nat := 404
  explicitStatus : Bool := false
  body : Option Body := none
  redirectedTo : Option String := none
  deriving DecidableEq, Repr

/-- The assignment `ctx.status = code`. -/
def Ctx.setStatus (ctx : Ctx) (code : Nat) : Ctx :=
  { ctx with status := code, explicitStatus := true }

/-- The assignment `ctx.body = value`: the status becomes 200 unless it was
assigned explicitly. -/
def Ctx.setBody (ctx : Ctx) (value : Body) : Ctx :=
  { ctx with body := some value, status := if ctx.explicitStatus then ctx.status else 200 }

/-- The statuses for which `statuses.redirect` holds. -/
def redirectStatuses : List Nat := [300, 301, 302, 303, 305, 307, 308]

/-- The call `ctx.redirect(url)`: the url is recorded for the `Location` header,
the status is assigned 302 unless it already is a redirect status, and the
redirect page becomes the body. -/
def Ctx.redirect (ctx : Ctx) (url : String) : Ctx :=
  let ctx1 := { ctx with redirectedTo := some url }
  let ctx2 := if ctx1.status ∈ redirectStatuses then ctx1 else ctx1.setStatus 302
  ctx2.setBody (.redirectPage url)

/-- The part of the request the middlewares read: `ctx.request.path`,
`ctx.query["new"]` and `ctx.request.host`. -/
structure Request where
  path : String
  queryNew : JsValue := .undefined
  host : String := ""

/-- What running a handler does: the manager state afterwards, the calls made,
and the context it leaves or the value it throws. -/
structure Outcome (M C : Type) where
  state : M
  calls : List (Call C)
  result : Except Thrown Ctx

/-- The status of the response Koa sends for an outcome: the status of the
context, or, for a thrown value, the status of the HTTP error and 500 for any
other error. -/
def Outcome.responseStatus {M C : Type} (o : Outcome M C) : Nat :=
  match o.result with
  | .ok ctx => ctx.status
  | .error (.httpError status) => status
  | .error (.error _) => 500

/-- The body left in the context, if the handler returned. -/
def Outcome.responseBody {M C : Type} (o : Outcome M C) : Option Body :=
  match o.result with
  | .ok ctx => ctx.body
  | .error _ => none

/-! ## Routes and middlewares -/

/-- Handler of `GET /api/status` (lines 30-38). -/
def apiStatus {M C : Type} (manager : ClientManager M C) (mem : MemoryUsage)
    (m : M) (ctx : Ctx) : Outcome M C :=
  let stats := manager.stats m
  { state := m
    calls := [.stats]
    result := .ok (ctx.setBody (.status stats.idsUsed stats.portsEngaged mem)) }

/-- Handler of `GET /api/tunnels/:id/status` (lines 40-52). -/
def apiTunnelStatus {M C : Type} (manager : ClientManager M C)
    (clientStats : C → ClientStats) (m : M) (ctx : Ctx) (id : String) : Outcome M C :=
  let clientId := id
  match manager.getClient m clientId with
  | none => { state := m, calls := [.getClient clientId], result := .error (.httpError 404) }
  | some client =>
    let stats := clientStats client
    { state := m
      calls := [.getClient clientId, .clientStats client]
      result := .ok (ctx.setBody (.tunnelStatus stats.connectedSockets)) }

/-- Handler of `GET /api/tunnels/:id/delete` (lines 54-73). -/
def apiTunnelDelete {M C : Type} (opt : Options) (manager : ClientManager M C)
    (m : M) (ctx : Ctx) (id : String) : Outcome M C :=
  if opt.allowDelete.truthy then
    let clientId := id
    match manager.getClient m clientId with
    | none => { state := m, calls := [.getClient clientId], result := .error (.httpError 404) }
    | some _ =>
      { state := manager.removeClient m clientId
        calls := [.getClient clientId, .removeClient clientId]
        result := .ok (ctx.setBody (.deleteStatus "success")) }
  else
    { state := m
      calls := []
      result := .ok ((ctx.setStatus 401).setBody
        (.message "this tunnelserver instance does not support deleting endpoints")) }

/-- The root middleware (lines 79-109); `hriRandom` is the id that `hri.random()`
returns and `next` the rest of the middleware chain.  Anything thrown inside the
`try` block is caught and answered with 503. -/
def rootMiddleware {M C : Type} (opt : Options) (manager : ClientManager M C)
    (hriRandom : String) (req : Request) (next : M → Ctx → Outcome M C)
    (m : M) (ctx : Ctx) : Outcome M C :=
  let path := req.path
  if path ≠ "/" then next m ctx
  else
    let isNewClientRequest := req.queryNew ≠ .undefined
    if isNewClientRequest then
      let reqId := hriRandom
      match manager.newClient m reqId with
      | (m1, .ok info) =>
        let info1 := { info with url := some (schema opt ++ "://" ++ info.id ++ "." ++ req.host) }
        { state := m1, calls := [.newClient reqId], result := .ok (ctx.setBody (.info info1)) }
      | (m1, .error _) =>
        { state := m1
          calls := [.newClient reqId]
          result := .ok ((ctx.setStatus 503).setBody
            (.message "Server capacity has been reached; Try again later")) }
    else
      { state := m, calls := [], result := .ok (ctx.redirect (landingPage opt)) }

/-- The message of the 403 answer (lines 128-129). -/
def invalidSubdomainMsg : String :=
  "Invalid subdomain. Subdomains must be lowercase and between 4 and 63 alphanumeric characters."

/-- The path-based new-client middleware (lines 113-149).  Anything thrown inside
the `try` block is caught and answered with 503. -/
def pathMiddleware {M C : Type} (opt : Options) (manager : ClientManager M C)
    (req : Request) (next : M → Ctx → Outcome M C) (m : M) (ctx : Ctx) : Outcome M C :=
  let parts := splitSlash req.path
  if parts.length ≠ 2 then next m ctx
  else
    let reqId := parts.getD 1 ""
    if !validReqId reqId then
      let msg := invalidSubdomainMsg
      { state := m
        calls := []
        result := .ok ((ctx.setStatus 403).setBody (.message msg)) }
    else
      match manager.newClient m reqId with
      | (m1, .ok info) =>
        let info1 := { info with url := some (schema opt ++ "://" ++ info.id ++ "." ++ req.host) }
        { state := m1, calls := [.newClient reqId], result := .ok (ctx.setBody (.info info1)) }
      | (m1, .error _) =>
        { state := m1
          calls := [.newClient reqId]
          result := .ok ((ctx.setStatus 503).setBody
            (.message "Server capacity has been reached; Try again later")) }

/-- The end of the middleware chain: nothing is done. -/
def noNext {M C : Type} (m : M) (ctx : Ctx) : Outcome M C :=
  { state := m, calls := [], result := .ok ctx }

/-! ## The HTTP server -/

/-- The function `GetClientIdFromHostname` (lines 19-21); `getSubdomain` is the
method `myTldjs.getSubdomain`, built for `validHosts`, whose `null` is embedded as
`none`. -/
def GetClientIdFromHostname (getSubdomain : Option (List String) → String → Option String)
    (opt : Options) (hostname : String) : Option String :=
  getSubdomain (validHosts opt) hostname

/-- The listener of `request` (lines 155-178); `host` is `req.headers.host`. -/
def onRequest {M C : Type} (getSubdomain : Option (List String) → String → Option String)
    (opt : Options) (manager : ClientManager M C) (m : M) (host : Option String) :
    List (Call C) :=
  let hostname := host
  if !truthyStr hostname then [.resEnd 400 "Host header is required"]
  else
    let clientId := GetClientIdFromHostname getSubdomain opt (hostname.getD "")
    if !truthyStr clientId then [.appCallback]
    else
      match manager.getClient m (clientId.getD "") with
      | none => [.getClient (clientId.getD ""), .resEnd 404 "404"]
      | some client => [.getClient (clientId.getD ""), .handleRequest client]

/-- The listener of `upgrade` (lines 180-200). -/
def onUpgrade {M C : Type} (getSubdomain : Option (List String) → String → Option String)
    (opt : Options) (manager : ClientManager M C) (m : M) (host : Option String) :
    List (Call C) :=
  let hostname := host
  if !truthyStr hostname then [.socketDestroy]
  else
    let clientId := GetClientIdFromHostname getSubdomain opt (hostname.getD "")
    if !truthyStr clientId then [.socketDestroy]
    else
      match manager.getClient m (clientId.getD "") with
      | none => [.getClient (clientId.getD ""), .socketDestroy]
      | some client => [.getClient (clientId.getD ""), .handleUpgrade client]

/-! ## A Client Manager to run the gateway on -/

/-- Modelled from the spec: the Client Manager of `./lib/ClientManager`, which is
not part of the sources (spec 4.3): a registry of ids with a global capacity.
`newClient` fails with a conflict for a registered id and with a capacity error
when the registry is full; `removeClient` is idempotent; `idsUsed` is the
registry size. -/
def registryManager (maxTunnels : Nat) : ClientManager (List String) String where
  stats := fun reg => { idsUsed := reg.length, portsEngaged := reg.length }
  getClient := fun reg id => if id ∈ reg then some id else none
  removeClient := fun reg id => reg.erase id
  newClient := fun reg id =>
    if id ∈ reg then (reg, .error (.error "Conflict"))
    else if maxTunnels ≤ reg.length then (reg, .error (.error "CapacityError"))
    else (id :: reg, .ok { id := id, port := 0, maxConnections := 10 })

/-! ## Characterisation of the accepted ids -/

theorem any_isEmpty_iff (l : List (List Char)) :
    l.any List.isEmpty = true ↔ [] ∈ l := by
  induction l with
  | nil => simp
  | cons x xs ih =>
    cases x <;> simp [List.any_cons, ih]

theorem run_seq (a b : Regex) (s : List Char) :
    (Regex.seq a b).run s = (a.run s).flatMap b.run := rfl

theorem run_alt (a b : Regex) (s : List Char) :
    (Regex.alt a b).run s = a.run s ++ b.run s := rfl

theorem run_rep (a : Regex) (lo hi : Nat) (s : List Char) :
    (Regex.rep a lo hi).run s = repRun a.run lo hi s := rfl

theorem mem_run_cls (p : Char → Bool) (s r : List Char) :
    r ∈ (Regex.cls p).run s ↔ ∃ c, s = c :: r ∧ p c = true := by
  cases s with
  | nil => simp [Regex.run]
  | cons c cs =>
    by_cases h : p c = true
    · simp only [Regex.run, h, if_true, List.mem_singleton, List.cons.injEq]
      constructor
      · intro e; exact ⟨c, ⟨rfl, e.symm⟩, h⟩
      · rintro ⟨_, ⟨_, e⟩, _⟩; exact e.symm
    · simp only [Regex.run, h, List.cons.injEq]
      constructor
      · intro e; simp at e
      · rintro ⟨d, ⟨e, _⟩, hd⟩; exact absurd (e ▸ hd) h

theorem mem_repRun_cls (p : Char → Bool) (hi : Nat) :
    ∀ (lo : Nat) (s r : List Char),
      r ∈ repRun (Regex.cls p).run lo hi s ↔
        ∃ pre, s = pre ++ r ∧ lo ≤ pre.length ∧ pre.length ≤ hi ∧ ∀ c ∈ pre, p c = true := by
  induction hi with
  | zero =>
    intro lo s r
    by_cases h : lo = 0
    · subst h
      simp only [repRun, if_true, List.mem_singleton]
      constructor
      · intro e; exact ⟨[], by simp [e], by simp, by simp, by simp⟩
      · rintro ⟨pre, e, _, hl, _⟩
        have : pre = [] := List.length_eq_zero.mp (Nat.le_zero.mp hl)
        subst this; simpa using e.symm
    · simp only [repRun, h, if_false, List.not_mem_nil, false_iff]
      rintro ⟨pre, _, h1, h2, _⟩
      omega
  | succ n ih =>
    intro lo s r
    simp only [repRun, List.mem_append, List.mem_flatMap, mem_run_cls, ih]
    constructor
    · rintro (⟨x, ⟨c, hs, hc⟩, pre, hx, h1, h2, h3⟩ | h)
      · refine ⟨c :: pre, by simp [hs, hx], by simp; omega, by simp; omega, ?_⟩
        intro d hd
        rcases List.mem_cons.mp hd with e | e
        · exact e ▸ hc
        · exact h3 d e
      · by_cases h0 : lo = 0
        · simp only [h0, if_true, List.mem_singleton] at h
          exact ⟨[], by simp [h], by simp [h0], by simp, by simp⟩
        · simp [h0] at h
    · rintro ⟨pre, hs, h1, h2, h3⟩
      cases pre with
      | nil =>
        right
        have h0 : lo = 0 := by simpa using h1
        simp [h0, hs]
      | cons c pre =>
        left
        refine ⟨pre ++ r, ⟨c, by simp [hs], h3 c (by simp)⟩, pre, rfl, ?_, ?_, ?_⟩
        · simp at h1; omega
        · simp at h2; omega
        · intro d hd; exact h3 d (by simp [hd])

/-- The ids accepted by line 127, read off the two alternatives of the
expression. -/
theorem validReqId_iff (s : String) :
    validReqId s = true ↔
      (∃ c mid d, s.toList = c :: (mid ++ [d]) ∧ lowerAlnum c = true ∧ lowerAlnum d = true ∧
          4 ≤ mid.length ∧ mid.length ≤ 63 ∧ ∀ x ∈ mid, lowerAlnumHyphen x = true) ∨
        (4 ≤ s.toList.length ∧ s.toList.length ≤ 63 ∧ ∀ x ∈ s.toList, lowerAlnum x = true) := by
  unfold validReqId Regex.test subdomainRegex
  rw [any_isEmpty_iff]
  simp only [run_seq, run_alt, run_rep, List.mem_append, List.mem_flatMap, mem_run_cls,
    mem_repRun_cls]
  constructor
  · rintro (⟨x, ⟨c, hs, hc⟩, y, ⟨mid, hx, h1, h2, h3⟩, d, hy, hd⟩ | ⟨pre, hs, h1, h2, h3⟩)
    · left
      exact ⟨c, mid, d, by rw [hs, hx, hy], hc, hd, h1, h2, h3⟩
    · right
      simp only [List.append_nil] at hs
      subst hs
      exact ⟨h1, h2, h3⟩
  · rintro (⟨c, mid, d, hs, hc, hd, h1, h2, h3⟩ | ⟨h1, h2, h3⟩)
    · left
      exact ⟨mid ++ [d], ⟨c, hs, hc⟩, [d], ⟨mid, rfl, h1, h2, h3⟩, d, rfl, hd⟩
    · right
      exact ⟨s.toList, by simp, h1, h2, h3⟩

theorem lowerAlnum_iff (c : Char) :
    lowerAlnum c = true ↔ IsLowerLetter c ∨ IsDigit c := by
  simp [lowerAlnum, IsLowerLetter, IsDigit]

theorem lowerAlnumHyphen_iff (c : Char) :
    lowerAlnumHyphen c = true ↔ IsLowerLetter c ∨ IsDigit c ∨ c = '-' := by
  simp [lowerAlnumHyphen, lowerAlnum_iff, or_assoc]

theorem lowerAlnumHyphen_of_lowerAlnum (c : Char) (h : lowerAlnum c = true) :
    lowerAlnumHyphen c = true := by
  simp [lowerAlnumHyphen, h]

theorem not_upper_of_lowerAlnumHyphen (c : Char) (h : lowerAlnumHyphen c = true) :
    ¬ IsUpperLetter c ∧ c ≠ '.' := by
  constructor
  · rcases (lowerAlnumHyphen_iff c).mp h with h | h | h
    · intro hu
      have h1 := h.1
      have h2 := hu.2
      have ea : 'a'.toNat = 97 := rfl
      have eZ : 'Z'.toNat = 90 := rfl
      omega
    · intro hu
      have h1 := h.2
      have h2 := hu.1
      have e9 : '9'.toNat = 57 := rfl
      have eA : 'A'.toNat = 65 := rfl
      omega
    · subst h
      intro hu
      have h2 := hu.1
      have eA : 'A'.toNat = 65 := rfl
      have eh : '-'.toNat = 45 := rfl
      omega
  · intro e
    subst e
    revert h
    decide

/-- Every accepted id has between 4 and 65 characters. -/
theorem validReqId_length (s : String) (h : validReqId s = true) :
    4 ≤ s.length ∧ s.length ≤ 65 := by
  have hl : s.length = s.toList.length := rfl
  rcases (validReqId_iff s).mp h with ⟨c, mid, d, hs, _, _, h1, h2, _⟩ | ⟨h1, h2, _⟩
  · rw [hl, hs]
    simp only [List.length_cons, List.length_append, List.length_singleton, List.length_nil]
    omega
  · rw [hl]
    omega

theorem validReqId_charset_aux (s : String) (h : validReqId s = true) :
    ∀ c ∈ s.toList, IsLowerLetter c ∨ IsDigit c ∨ c = '-' := by
  intro x hx
  rw [← lowerAlnumHyphen_iff]
  rcases (validReqId_iff s).mp h with ⟨c, mid, d, hs, hc, hd, _, _, h3⟩ | ⟨_, _, h3⟩
  · rw [hs] at hx
    rcases List.mem_cons.mp hx with e | hx
    · exact e ▸ lowerAlnumHyphen_of_lowerAlnum c hc
    · rcases List.mem_append.mp hx with hx | hx
      · exact h3 x hx
      · rw [List.mem_singleton.mp hx]
        exact lowerAlnumHyphen_of_lowerAlnum d hd
  · exact lowerAlnumHyphen_of_lowerAlnum x (h3 x hx)

/-! ## Splitting the request path -/

theorem splitChars_of_not_mem (sep : Char) (l : List Char) (h : sep ∉ l) :
    splitChars sep l = [l] := by
  induction l with
  | nil => rfl
  | cons c cs ih =>
    have hc : c ≠ sep := fun e => h (e ▸ List.mem_cons_self c cs)
    have hcs : sep ∉ cs := fun e => h (List.mem_cons_of_mem c e)
    simp [splitChars, hc, ih hcs]

/-- A path `/<reqId>` with no further slash splits into the empty string and
`reqId`. -/
theorem splitSlash_slash_append (reqId : String) (h : '/' ∉ reqId.toList) :
    splitSlash ("/" ++ reqId) = ["", reqId] := by
  have e : ("/" ++ reqId).toList = '/' :: reqId.toList := rfl
  unfold splitSlash
  rw [e]
  simp only [splitChars, if_true, splitChars_of_not_mem '/' reqId.toList h, List.map_cons,
    List.map_nil]
  rfl

theorem slash_not_mem_of_lowerAlnumHyphen (l : List Char)
    (h : ∀ c ∈ l, lowerAlnumHyphen c = true) : '/' ∉ l := by
  intro hm
  have := h '/' hm
  revert this
  decide

theorem slash_not_mem_of_valid (reqId : String) (h : validReqId reqId = true) :
    '/' ∉ reqId.toList :=
  slash_not_mem_of_lowerAlnumHyphen reqId.toList
    (fun c hc => (lowerAlnumHyphen_iff c).mpr ((validReqId_charset_aux reqId h) c hc))

/-! ## The id validation (C1, C2, C3) -/

set_option maxRecDepth 100000 in
/-- C1 (the code departs from its own comment "limit requested hostnames to 63
characters"): the validation of line 127 accepts an id of 65 characters, through
the alternative `[a-z0-9][a-z0-9\-]{4,63}[a-z0-9]`. -/
theorem validReqId_accepts_65 :
    validReqId "aaaaaaaaaaaaaaaaaaaaaaaaaaaaaaaaaaaaaaaaaaaaaaaaaaaaaaaaaaaaaaaaa" = true ∧
      "aaaaaaaaaaaaaaaaaaaaaaaaaaaaaaaaaaaaaaaaaaaaaaaaaaaaaaaaaaaaaaaaa".length = 65 := by
  decide

/-- C2: every character of an accepted id is a lowercase ASCII letter, a digit
or a hyphen, its first and its last character are a lowercase letter or a digit,
and it contains no uppercase letter and no dot. -/
theorem validReqId_charset (s : String) (h : validReqId s = true) :
    (∀ c ∈ s.toList, IsLowerLetter c ∨ IsDigit c ∨ c = '-') ∧
      (∃ c, s.toList.head? = some c ∧ (IsLowerLetter c ∨ IsDigit c)) ∧
      (∃ c, s.toList.getLast? = some c ∧ (IsLowerLetter c ∨ IsDigit c)) ∧
      (∀ c ∈ s.toList, ¬ IsUpperLetter c ∧ c ≠ '.') := by
  have key : (∀ c ∈ s.toList, lowerAlnumHyphen c = true) ∧
      (∃ c, s.toList.head? = some c ∧ lowerAlnum c = true) ∧
      (∃ c, s.toList.getLast? = some c ∧ lowerAlnum c = true) := by
    rcases (validReqId_iff s).mp h with ⟨c, mid, d, hs, hc, hd, _, _, h3⟩ | ⟨h1, _, h3⟩
    · rw [hs]
      refine ⟨?_, ⟨c, rfl, hc⟩, ⟨d, ?_, hd⟩⟩
      · intro x hx
        rcases List.mem_cons.mp hx with e | hx
        · exact e ▸ lowerAlnumHyphen_of_lowerAlnum c hc
        · rcases List.mem_append.mp hx with hx | hx
          · exact h3 x hx
          · rw [List.mem_singleton.mp hx]
            exact lowerAlnumHyphen_of_lowerAlnum d hd
      · rw [← List.cons_append, List.getLast?_append]
        rfl
    · refine ⟨fun x hx => lowerAlnumHyphen_of_lowerAlnum x (h3 x hx), ?_, ?_⟩
      · cases hl : s.toList with
        | nil => rw [hl] at h1; simp at h1
        | cons a l => exact ⟨a, rfl, h3 a (by rw [hl]; simp)⟩
      · cases hl : s.toList.getLast? with
        | none =>
          rw [List.getLast?_eq_none_iff] at hl
          rw [hl] at h1; simp at h1
        | some a => exact ⟨a, rfl, h3 a (List.mem_of_getLast?_eq_some hl)⟩
  obtain ⟨k1, ⟨c, hc, k2⟩, ⟨d, hd, k3⟩⟩ := key
  exact ⟨fun x hx => (lowerAlnumHyphen_iff x).mp (k1 x hx),
    ⟨c, hc, (lowerAlnum_iff c).mp k2⟩, ⟨d, hd, (lowerAlnum_iff d).mp k3⟩,
    fun x hx => not_upper_of_lowerAlnumHyphen x (k1 x hx)⟩

/-- C2 at the accepted id `ab-cde`. -/
theorem validReqId_charset_witness :
    validReqId "ab-cde" = true ∧
      (∀ c ∈ "ab-cde".toList, IsLowerLetter c ∨ IsDigit c ∨ c = '-') ∧
      (∃ c, "ab-cde".toList.head? = some c ∧ (IsLowerLetter c ∨ IsDigit c)) ∧
      (∃ c, "ab-cde".toList.getLast? = some c ∧ (IsLowerLetter c ∨ IsDigit c)) ∧
      (∀ c ∈ "ab-cde".toList, ¬ IsUpperLetter c ∧ c ≠ '.') :=
  ⟨by decide, validReqId_charset "ab-cde" (by decide)⟩

/-- C3 as stated fails: `a-bc` has 4 characters, starts and ends with a letter
and has only letters and a hyphen inside, and the validation rejects it. -/
theorem hostnameShaped_rejected :
    HostnameShaped "a-bc" ∧ validReqId "a-bc" = false := by
  refine ⟨⟨by decide, by decide, 'a', ['-', 'b'], 'c', rfl, ?_, ?_, ?_⟩, by decide⟩
  · exact Or.inl (by decide)
  · exact Or.inl (by decide)
  · intro x hx
    rcases List.mem_cons.mp hx with e | hx
    · exact Or.inr (Or.inr e)
    · rw [List.mem_singleton.mp hx]
      exact Or.inl (by decide)

/-- C3, amended: a string of 4 to 63 characters whose first and last characters
are lowercase letters or digits and whose interior characters are lowercase
letters, digits or hyphens is accepted when it has at least 6 characters or
contains no hyphen. -/
theorem validReqId_of_hostnameShaped (s : String) (h : HostnameShaped s)
    (h6 : 6 ≤ s.length ∨ ∀ c ∈ s.toList, c ≠ '-') : validReqId s = true := by
  obtain ⟨h4, h63, c, mid, d, hs, hc, hd, hm⟩ := h
  have hl : s.length = mid.length + 2 := by
    show s.toList.length = _
    rw [hs]
    simp
  rw [validReqId_iff]
  by_cases hlen : 6 ≤ s.length
  · left
    exact ⟨c, mid, d, hs, (lowerAlnum_iff c).mpr hc, (lowerAlnum_iff d).mpr hd, by omega,
      by omega, fun x hx => (lowerAlnumHyphen_iff x).mpr (hm x hx)⟩
  · right
    have hno : ∀ x ∈ s.toList, x ≠ '-' := by
      rcases h6 with h6 | h6
      · exact absurd h6 hlen
      · exact h6
    refine ⟨h4, h63, ?_⟩
    intro x hx
    have hx0 := hx
    rw [hs] at hx
    rcases List.mem_cons.mp hx with e | hx
    · exact e ▸ (lowerAlnum_iff c).mpr hc
    · rcases List.mem_append.mp hx with hx | hx
      · rcases hm x hx with k | k | k
        · exact (lowerAlnum_iff x).mpr (Or.inl k)
        · exact (lowerAlnum_iff x).mpr (Or.inr k)
        · exact absurd k (hno x hx0)
      · rw [List.mem_singleton.mp hx]
        exact (lowerAlnum_iff d).mpr hd

/-- C3, amended, at `ab-cde` (6 characters, one hyphen). -/
theorem validReqId_of_hostnameShaped_witness : validReqId "ab-cde" = true :=
  validReqId_of_hostnameShaped "ab-cde"
    ⟨by decide, by decide, 'a', ['b', '-', 'c', 'd'], 'e', rfl, Or.inl (by decide),
      Or.inl (by decide), by
        intro x hx
        simp only [List.mem_cons, List.mem_singleton, List.not_mem_nil, or_false] at hx
        rcases hx with e | e | e | e
        · exact e ▸ Or.inl (by decide)
        · exact Or.inr (Or.inr e)
        · exact e ▸ Or.inl (by decide)
        · exact e ▸ Or.inl (by decide)⟩
    (Or.inl (by decide))

/-! ## Tunnel creation on `/<id>` and `/?new` (C4, C5, C6) -/

/-- The root middleware leaves every request whose path is not `/` to the rest of
the chain. -/
theorem rootMiddleware_passes {M C : Type} (opt : Options) (manager : ClientManager M C)
    (hriRandom : String) (req : Request) (next : M → Ctx → Outcome M C) (m : M) (ctx : Ctx)
    (h : req.path ≠ "/") :
    rootMiddleware opt manager hriRandom req next m ctx = next m ctx := by
  simp [rootMiddleware, h]

/-- C4: for a string of 4 to 63 lowercase letters and digits, a request whose
path is `/` followed by the string passes the validation, and the path-based
middleware calls `manager.newClient` with exactly that string (its only call). -/
theorem pathMiddleware_creates {M C : Type} (opt : Options) (manager : ClientManager M C)
    (req : Request) (next : M → Ctx → Outcome M C) (m : M) (ctx : Ctx) (s : String)
    (hchars : ∀ c ∈ s.toList, IsLowerLetter c ∨ IsDigit c)
    (h4 : 4 ≤ s.length) (h63 : s.length ≤ 63) (hpath : req.path = "/" ++ s) :
    validReqId s = true ∧
      (pathMiddleware opt manager req next m ctx).calls = [Call.newClient s] ∧
      (pathMiddleware opt manager req next m ctx).state = (manager.newClient m s).1 := by
  have hv : validReqId s = true :=
    (validReqId_iff s).mpr (Or.inr ⟨h4, h63, fun x hx => (lowerAlnum_iff x).mpr (hchars x hx)⟩)
  have hsplit := splitSlash_slash_append s (slash_not_mem_of_valid s hv)
  refine ⟨hv, ?_, ?_⟩
  · unfold pathMiddleware
    simp only [hpath, hsplit, List.length_cons, List.length_nil, List.getD_cons_succ,
      List.getD_cons_zero, hv]
    rcases hn : manager.newClient m s with ⟨m1, r⟩
    cases r <;> simp
  · unfold pathMiddleware
    simp only [hpath, hsplit, List.length_cons, List.length_nil, List.getD_cons_succ,
      List.getD_cons_zero, hv]
    rcases hn : manager.newClient m s with ⟨m1, r⟩
    cases r <;> simp

/-- C4 at the request `/abcd` on an empty registry. -/
theorem pathMiddleware_creates_witness :
    validReqId "abcd" = true ∧
      (pathMiddleware {} (registryManager 10) { path := "/abcd" } noNext [] {}).calls =
        [Call.newClient "abcd"] ∧
      (pathMiddleware {} (registryManager 10) { path := "/abcd" } noNext [] {}).state =
        ((registryManager 10).newClient [] "abcd").1 :=
  pathMiddleware_creates {} (registryManager 10) { path := "/abcd" } noNext [] {} "abcd"
    (by decide) (by decide) (by decide) rfl

/-- C5: when `manager.newClient` fails, with whatever error, the tunnel-creation
middleware returns normally (nothing is thrown) with status 503 and the body
message "Server capacity has been reached; Try again later": the root middleware
on `/?new` with the generated id `hriRandom`, and, separately, the path-based
middleware on `/<id>` with an id that passes the validation.  In both,
`newClient` is the only call. -/
theorem newClient_failure_503 {M C : Type} (opt : Options) (manager : ClientManager M C)
    (next : M → Ctx → Outcome M C) (m : M) (ctx : Ctx) :
    (∀ (reqNew : Request) (hriRandom : String) (m1 : M) (e1 : Thrown),
      reqNew.path = "/" → reqNew.queryNew ≠ JsValue.undefined →
      manager.newClient m hriRandom = (m1, Except.error e1) →
        (rootMiddleware opt manager hriRandom reqNew next m ctx).result =
            Except.ok ((ctx.setStatus 503).setBody
              (Body.message "Server capacity has been reached; Try again later")) ∧
          (rootMiddleware opt manager hriRandom reqNew next m ctx).responseStatus = 503 ∧
          (rootMiddleware opt manager hriRandom reqNew next m ctx).responseBody =
            some (Body.message "Server capacity has been reached; Try again later") ∧
          (rootMiddleware opt manager hriRandom reqNew next m ctx).calls =
            [Call.newClient hriRandom] ∧
          (rootMiddleware opt manager hriRandom reqNew next m ctx).state = m1) ∧
    (∀ (reqPath : Request) (id : String) (m2 : M) (e2 : Thrown),
      reqPath.path = "/" ++ id → validReqId id = true →
      manager.newClient m id = (m2, Except.error e2) →
        (pathMiddleware opt manager reqPath next m ctx).result =
            Except.ok ((ctx.setStatus 503).setBody
              (Body.message "Server capacity has been reached; Try again later")) ∧
          (pathMiddleware opt manager reqPath next m ctx).responseStatus = 503 ∧
          (pathMiddleware opt manager reqPath next m ctx).responseBody =
            some (Body.message "Server capacity has been reached; Try again later") ∧
          (pathMiddleware opt manager reqPath next m ctx).calls = [Call.newClient id] ∧
          (pathMiddleware opt manager reqPath next m ctx).state = m2) := by
  constructor
  · intro reqNew hriRandom m1 e1 hroot hnew hfail1
    have hr : rootMiddleware opt manager hriRandom reqNew next m ctx =
        { state := m1, calls := [Call.newClient hriRandom],
          result := Except.ok ((ctx.setStatus 503).setBody
            (Body.message "Server capacity has been reached; Try again later")) } := by
      unfold rootMiddleware
      simp [hroot, hnew, hfail1]
    rw [hr]
    simp [Outcome.responseStatus, Outcome.responseBody, Ctx.setStatus, Ctx.setBody]
  · intro reqPath id m2 e2 hpath hvalid hfail2
    have hsplit := splitSlash_slash_append id (slash_not_mem_of_valid id hvalid)
    have hp : pathMiddleware opt manager reqPath next m ctx =
        { state := m2, calls := [Call.newClient id],
          result := Except.ok ((ctx.setStatus 503).setBody
            (Body.message "Server capacity has been reached; Try again later")) } := by
      unfold pathMiddleware
      simp [hpath, hsplit, hvalid, hfail2]
    rw [hp]
    simp [Outcome.responseStatus, Outcome.responseBody, Ctx.setStatus, Ctx.setBody]

/-- C5 on a registry that holds `good-cat-42` and has room left: `/?new` with that
generated id fails with a conflict and is answered 503, although no id that
passes the validation would fail; and on a manager at capacity, `/abcd` is
answered 503. -/
theorem newClient_failure_503_witness :
    ((rootMiddleware {} (registryManager 10) "good-cat-42"
        { path := "/", queryNew := .string "" } noNext ["good-cat-42"] {}).responseStatus
        = 503) ∧
      ((pathMiddleware {} (registryManager 0) { path := "/abcd" } noNext [] {}).responseStatus
        = 503) :=
  ⟨((newClient_failure_503 {} (registryManager 10) noNext ["good-cat-42"] {}).1
      { path := "/", queryNew := .string "" } "good-cat-42" ["good-cat-42"] (.error "Conflict")
      rfl (by decide) (by simp [registryManager])).2.1,
    ((newClient_failure_503 {} (registryManager 0) noNext [] {}).2
      { path := "/abcd" } "abcd" [] (.error "CapacityError") rfl (by decide) rfl).2.1⟩

/-- C6: for a request whose path has exactly one segment, `/<reqId>` with a
non-empty `reqId` and no further slash, where `reqId` fails the validation, the
gateway's middlewares (the root middleware, then the path-based one) answer with
status 403 and the "Invalid subdomain" message, make no call on the manager (so
`newClient` is not called) and leave the manager state unchanged. -/
theorem gateway_invalid_subdomain {M C : Type} (opt : Options) (manager : ClientManager M C)
    (hriRandom : String) (req : Request) (next : M → Ctx → Outcome M C) (m : M) (ctx : Ctx)
    (reqId : String) (hpath : req.path = "/" ++ reqId) (hne : reqId ≠ "")
    (hseg : '/' ∉ reqId.toList) (hbad : validReqId reqId = false) :
    (rootMiddleware opt manager hriRandom req
        (pathMiddleware opt manager req next) m ctx).responseStatus = 403 ∧
      (rootMiddleware opt manager hriRandom req
        (pathMiddleware opt manager req next) m ctx).responseBody = some (Body.message
        "Invalid subdomain. Subdomains must be lowercase and between 4 and 63 alphanumeric characters.") ∧
      (rootMiddleware opt manager hriRandom req
        (pathMiddleware opt manager req next) m ctx).calls = [] ∧
      (rootMiddleware opt manager hriRandom req
        (pathMiddleware opt manager req next) m ctx).state = m := by
  have hroot : req.path ≠ "/" := by
    intro h
    rw [hpath] at h
    have hd := congrArg String.data h
    simp only [String.data_append] at hd
    have hnil : reqId.data = [] := by simpa using hd
    exact hne (String.ext hnil)
  have hsplit := splitSlash_slash_append reqId hseg
  have hp : pathMiddleware opt manager req next m ctx =
      { state := m, calls := [],
        result := Except.ok ((ctx.setStatus 403).setBody (Body.message invalidSubdomainMsg)) } := by
    unfold pathMiddleware
    simp [hpath, hsplit, hbad]
  rw [rootMiddleware_passes opt manager hriRandom req _ m ctx hroot, hp]
  simp [Outcome.responseStatus, Outcome.responseBody, Ctx.setStatus, Ctx.setBody,
    invalidSubdomainMsg]

/-- C6 at the request `/Abcd` (an uppercase letter). -/
theorem gateway_invalid_subdomain_witness :
    (rootMiddleware {} (registryManager 10) "good-cat-42" { path := "/Abcd" }
        (pathMiddleware {} (registryManager 10) { path := "/Abcd" } noNext) [] {}).responseStatus
        = 403 ∧
      (rootMiddleware {} (registryManager 10) "good-cat-42" { path := "/Abcd" }
        (pathMiddleware {} (registryManager 10) { path := "/Abcd" } noNext) [] {}).responseBody =
        some (Body.message
          "Invalid subdomain. Subdomains must be lowercase and between 4 and 63 alphanumeric characters.") ∧
      (rootMiddleware {} (registryManager 10) "good-cat-42" { path := "/Abcd" }
        (pathMiddleware {} (registryManager 10) { path := "/Abcd" } noNext) [] {}).calls = [] ∧
      (rootMiddleware {} (registryManager 10) "good-cat-42" { path := "/Abcd" }
        (pathMiddleware {} (registryManager 10) { path := "/Abcd" } noNext) [] {}).state = [] :=
  gateway_invalid_subdomain {} (registryManager 10) "good-cat-42" { path := "/Abcd" } noNext [] {}
    "Abcd" rfl (by decide) (by decide) (by decide)

/-! ## The JSON endpoints (C7, C8) -/

/-- C7: in every state of the Client Manager, the body of the answer to
`GET /api/status` carries the `idsUsed` and `portsEngaged` of the manager's
stats; the status is 200 on a fresh context and the manager state is left
unchanged. -/
theorem apiStatus_body {M C : Type} (manager : ClientManager M C) (mem : MemoryUsage)
    (m : M) (ctx : Ctx) :
    (apiStatus manager mem m ctx).responseBody =
        some (Body.status (manager.stats m).idsUsed (manager.stats m).portsEngaged mem) ∧
      (apiStatus manager mem m ({} : Ctx)).responseStatus = 200 ∧
      (apiStatus manager mem m ctx).state = m := by
  simp [apiStatus, Outcome.responseBody, Outcome.responseStatus, Ctx.setBody]

/-- C8: the handler of `GET /api/tunnels/:id/delete` calls `removeClient` if and
only if `opt.allowDelete` is truthy and `getClient(id)` returns a client, and
then it is called with `id` and the body is `{delete_status: "success"}`; when
`opt.allowDelete` is falsy the response is 401 and no call is made; when it is
truthy and the client is absent the response is 404 and `getClient(id)` is the
only call. -/
theorem apiTunnelDelete_spec {M C : Type} (opt : Options) (manager : ClientManager M C)
    (m : M) (ctx : Ctx) (id : String) :
    ((∃ j, Call.removeClient j ∈ (apiTunnelDelete opt manager m ctx id).calls) ↔
        (opt.allowDelete.truthy = true ∧ ∃ client, manager.getClient m id = some client)) ∧
      (opt.allowDelete.truthy = true → (∃ client, manager.getClient m id = some client) →
        (apiTunnelDelete opt manager m ctx id).calls =
            [Call.getClient id, Call.removeClient id] ∧
          (apiTunnelDelete opt manager m ctx id).state = manager.removeClient m id ∧
          (apiTunnelDelete opt manager m ctx id).responseBody =
            some (Body.deleteStatus "success")) ∧
      (opt.allowDelete.truthy = false →
        (apiTunnelDelete opt manager m ctx id).responseStatus = 401 ∧
          (apiTunnelDelete opt manager m ctx id).calls = [] ∧
          (apiTunnelDelete opt manager m ctx id).state = m) ∧
      (opt.allowDelete.truthy = true → manager.getClient m id = none →
        (apiTunnelDelete opt manager m ctx id).responseStatus = 404 ∧
          (apiTunnelDelete opt manager m ctx id).calls = [Call.getClient id] ∧
          (apiTunnelDelete opt manager m ctx id).state = m) := by
  unfold apiTunnelDelete
  cases ht : opt.allowDelete.truthy
  · simp [Outcome.responseStatus, Ctx.setStatus, Ctx.setBody]
  · cases hg : manager.getClient m id
    · simp [hg, Outcome.responseStatus]
    · simp [hg, Outcome.responseBody, Ctx.setBody]

/-- C8 on a registry holding `abcd`, with deletion allowed: `removeClient` is
called and the registry is emptied. -/
theorem apiTunnelDelete_spec_witness :
    (apiTunnelDelete { allowDelete := .bool true } (registryManager 10) ["abcd"] {} "abcd").calls
        = [Call.getClient "abcd", Call.removeClient "abcd"] ∧
      (apiTunnelDelete { allowDelete := .bool true } (registryManager 10) ["abcd"] {} "abcd").state
        = [] :=
  have h := (apiTunnelDelete_spec { allowDelete := .bool true } (registryManager 10) ["abcd"] {}
    "abcd").2.1 rfl ⟨"abcd", by decide⟩
  ⟨h.1, h.2.1.trans (by decide)⟩

/-! ## Dispatch of requests and upgrades (C9, C10) -/

/-- C9 as stated fails: a request whose Host header is present but empty has no
subdomain, and it is answered with 400 "Host header is required" instead of being
handed to the Koa application. -/
theorem onRequest_empty_host :
    GetClientIdFromHostname (fun _ _ => none) {} "" = none ∧
      onRequest (fun _ _ => none) {} (registryManager 10) [] (some "") =
        [Call.resEnd 400 "Host header is required"] ∧
      Call.appCallback ∉ onRequest (fun _ _ => none) {} (registryManager 10) [] (some "") := by
  decide

/-- C9, amended: `client.handleRequest` is called if and only if the Host header
is present and not empty, a (non-empty) subdomain is extracted from it and
`manager.getClient(subdomain)` returns a client; otherwise a missing or empty
Host header yields 400 "Host header is required", a non-empty host with no
subdomain is handed to the Koa application, and a subdomain with no registered
client yields 404 "404".  In each case the calls listed are all the calls made. -/
theorem onRequest_dispatch {M C : Type}
    (getSubdomain : Option (List String) → String → Option String) (opt : Options)
    (manager : ClientManager M C) (m : M) (host : Option String) :
    ((∃ client, Call.handleRequest client ∈ onRequest getSubdomain opt manager m host) ↔
        ∃ h sub client, host = some h ∧ h ≠ "" ∧
          GetClientIdFromHostname getSubdomain opt h = some sub ∧ sub ≠ "" ∧
          manager.getClient m sub = some client) ∧
      (host = none ∨ host = some "" →
        onRequest getSubdomain opt manager m host =
          [Call.resEnd 400 "Host header is required"]) ∧
      (∀ h, host = some h → h ≠ "" →
        (GetClientIdFromHostname getSubdomain opt h = none ∨
          GetClientIdFromHostname getSubdomain opt h = some "") →
        onRequest getSubdomain opt manager m host = [Call.appCallback]) ∧
      (∀ h sub, host = some h → h ≠ "" →
        GetClientIdFromHostname getSubdomain opt h = some sub → sub ≠ "" →
        manager.getClient m sub = none →
        onRequest getSubdomain opt manager m host =
          [Call.getClient sub, Call.resEnd 404 "404"]) ∧
      (∀ h sub client, host = some h → h ≠ "" →
        GetClientIdFromHostname getSubdomain opt h = some sub → sub ≠ "" →
        manager.getClient m sub = some client →
        onRequest getSubdomain opt manager m host =
          [Call.getClient sub, Call.handleRequest client]) := by
  rcases host with _ | h
  · simp [onRequest, truthyStr]
  · by_cases hh : h = ""
    · subst hh
      have hval : onRequest getSubdomain opt manager m (some "") =
          [Call.resEnd 400 "Host header is required"] := by
        simp [onRequest, truthyStr]
      rw [hval]
      refine ⟨iff_of_false ?_ ?_, fun _ => rfl, ?_, ?_, ?_⟩
      · rintro ⟨client, hm⟩
        simp at hm
      · rintro ⟨x, sub, client, hx, hne, _⟩
        exact hne (Option.some.inj hx).symm
      · intro x hx hne; exact absurd (Option.some.inj hx).symm hne
      · intro x sub hx hne; exact absurd (Option.some.inj hx).symm hne
      · intro x sub client hx hne; exact absurd (Option.some.inj hx).symm hne
    · have hb : (h != "") = true := by simpa using hh
      rcases hc : GetClientIdFromHostname getSubdomain opt h with _ | sub
      · have hval : onRequest getSubdomain opt manager m (some h) = [Call.appCallback] := by
          simp [onRequest, truthyStr, hb, hc]
        rw [hval]
        refine ⟨iff_of_false ?_ ?_, ?_, fun _ _ _ _ => rfl, ?_, ?_⟩
        · rintro ⟨client, hm⟩
          simp at hm
        · rintro ⟨x, sub, client, hx, _, hsub, _⟩
          cases Option.some.inj hx
          rw [hc] at hsub
          cases hsub
        · rintro (hx | hx)
          · cases hx
          · exact absurd (Option.some.inj hx) hh
        · intro x sub hx _ hsub
          cases Option.some.inj hx
          rw [hc] at hsub
          cases hsub
        · intro x sub client hx _ hsub
          cases Option.some.inj hx
          rw [hc] at hsub
          cases hsub
      · by_cases hs : sub = ""
        · subst hs
          have hval : onRequest getSubdomain opt manager m (some h) = [Call.appCallback] := by
            simp [onRequest, truthyStr, hb, hc]
          rw [hval]
          refine ⟨iff_of_false ?_ ?_, ?_, fun _ _ _ _ => rfl, ?_, ?_⟩
          · rintro ⟨client, hm⟩
            simp at hm
          · rintro ⟨x, sub, client, hx, _, hsub, hne, _⟩
            cases Option.some.inj hx
            rw [hc] at hsub
            exact hne (Option.some.inj hsub).symm
          · rintro (hx | hx)
            · cases hx
            · exact absurd (Option.some.inj hx) hh
          · intro x sub hx _ hsub hne
            cases Option.some.inj hx
            rw [hc] at hsub
            exact absurd (Option.some.inj hsub).symm hne
          · intro x sub client hx _ hsub hne
            cases Option.some.inj hx
            rw [hc] at hsub
            exact absurd (Option.some.inj hsub).symm hne
        · have hsb : (sub != "") = true := by simpa using hs
          rcases hg : manager.getClient m sub with _ | client
          · have hval : onRequest getSubdomain opt manager m (some h) =
                [Call.getClient sub, Call.resEnd 404 "404"] := by
              simp [onRequest, truthyStr, hb, hc, hsb, hg]
            rw [hval]
            refine ⟨?_, ?_, ?_, ?_, ?_⟩
            · constructor
              · rintro ⟨client, hm⟩
                simp at hm
              · rintro ⟨x, sub1, client, hx, _, hsub, _, hcl⟩
                cases Option.some.inj hx
                rw [hc] at hsub
                cases Option.some.inj hsub
                rw [hg] at hcl
                cases hcl
            · rintro (hx | hx)
              · cases hx
              · exact absurd (Option.some.inj hx) hh
            · rintro x hx _ (hsub | hsub)
              · cases Option.some.inj hx
                rw [hc] at hsub
                cases hsub
              · cases Option.some.inj hx
                rw [hc] at hsub
                exact absurd (Option.some.inj hsub) hs
            · intro x sub1 hx _ hsub _ _
              cases Option.some.inj hx
              rw [hc] at hsub
              cases Option.some.inj hsub
              rfl
            · intro x sub1 client hx _ hsub _ hcl
              cases Option.some.inj hx
              rw [hc] at hsub
              cases Option.some.inj hsub
              rw [hg] at hcl
              cases hcl
          · have hval : onRequest getSubdomain opt manager m (some h) =
                [Call.getClient sub, Call.handleRequest client] := by
              simp [onRequest, truthyStr, hb, hc, hsb, hg]
            rw [hval]
            refine ⟨?_, ?_, ?_, ?_, ?_⟩
            · constructor
              · intro _
                exact ⟨h, sub, client, rfl, hh, hc, hs, hg⟩
              · intro _
                exact ⟨client, by simp⟩
            · rintro (hx | hx)
              · cases hx
              · exact absurd (Option.some.inj hx) hh
            · rintro x hx _ (hsub | hsub)
              · cases Option.some.inj hx
                rw [hc] at hsub
                cases hsub
              · cases Option.some.inj hx
                rw [hc] at hsub
                exact absurd (Option.some.inj hsub) hs
            · intro x sub1 hx _ hsub _ hcl
              cases Option.some.inj hx
              rw [hc] at hsub
              cases Option.some.inj hsub
              rw [hg] at hcl
              cases hcl
            · intro x sub1 client1 hx _ hsub _ hcl
              cases Option.some.inj hx
              rw [hc] at hsub
              cases Option.some.inj hsub
              rw [hg] at hcl
              cases Option.some.inj hcl
              rfl

/-- C9, amended, on a registry holding `abcd`: a request for `abcd.example.com` is
passed to that client. -/
theorem onRequest_dispatch_witness :
    onRequest (fun _ h => if h = "abcd.example.com" then some "abcd" else none) {}
        (registryManager 10) ["abcd"] (some "abcd.example.com") =
      [Call.getClient "abcd", Call.handleRequest "abcd"] :=
  (onRequest_dispatch (fun _ h => if h = "abcd.example.com" then some "abcd" else none) {}
    (registryManager 10) ["abcd"] (some "abcd.example.com")).2.2.2.2
    "abcd.example.com" "abcd" "abcd" rfl (by decide) (by decide) (by decide) (by decide)

/-- C10: for every upgrade request, either the socket is destroyed or
`handleUpgrade` is called, and not both; `handleUpgrade` is called, on a client,
if and only if the Host header is present, a (non-empty) subdomain is extracted
from it and `manager.getClient(subdomain)` returns that client; the request is
never handed to the Koa application.  In each case the calls listed are all the
calls made.  The subdomain extraction of `tldjs` is taken to find no subdomain
in the empty string. -/
theorem onUpgrade_dispatch {M C : Type}
    (getSubdomain : Option (List String) → String → Option String) (opt : Options)
    (manager : ClientManager M C) (m : M) (host : Option String)
    (hempty : truthyStr (GetClientIdFromHostname getSubdomain opt "") = false) :
    (∀ client, Call.handleUpgrade client ∈ onUpgrade getSubdomain opt manager m host ↔
        ∃ h sub, host = some h ∧
          GetClientIdFromHostname getSubdomain opt h = some sub ∧ sub ≠ "" ∧
          manager.getClient m sub = some client) ∧
      (Call.socketDestroy ∈ onUpgrade getSubdomain opt manager m host ↔
        ¬ ∃ client, Call.handleUpgrade client ∈ onUpgrade getSubdomain opt manager m host) ∧
      Call.appCallback ∉ onUpgrade getSubdomain opt manager m host ∧
      (host = none → onUpgrade getSubdomain opt manager m host = [Call.socketDestroy]) ∧
      (∀ h, host = some h →
        (GetClientIdFromHostname getSubdomain opt h = none ∨
          GetClientIdFromHostname getSubdomain opt h = some "") →
        onUpgrade getSubdomain opt manager m host = [Call.socketDestroy]) ∧
      (∀ h sub, host = some h →
        GetClientIdFromHostname getSubdomain opt h = some sub → sub ≠ "" →
        manager.getClient m sub = none →
        onUpgrade getSubdomain opt manager m host =
          [Call.getClient sub, Call.socketDestroy]) ∧
      (∀ h sub client, host = some h →
        GetClientIdFromHostname getSubdomain opt h = some sub → sub ≠ "" →
        manager.getClient m sub = some client →
        onUpgrade getSubdomain opt manager m host =
          [Call.getClient sub, Call.handleUpgrade client]) := by
  have hd1 : ¬ ∃ client : C, Call.handleUpgrade client ∈ [(Call.socketDestroy : Call C)] := by
    rintro ⟨client, hm⟩
    simp at hm
  have hd2 : ∀ sub : String, ¬ ∃ client : C,
      Call.handleUpgrade client ∈ [Call.getClient sub, (Call.socketDestroy : Call C)] := by
    rintro sub ⟨client, hm⟩
    simp at hm
  rcases host with _ | h
  · have hval : onUpgrade getSubdomain opt manager m none = [Call.socketDestroy] := by
      simp [onUpgrade, truthyStr]
    rw [hval]
    refine ⟨fun client => iff_of_false (fun hm => hd1 ⟨client, hm⟩) ?_,
      iff_of_true (by simp) hd1, by simp, fun _ => rfl, ?_, ?_, ?_⟩
    · rintro ⟨x, sub, hx, _⟩; cases hx
    · intro x hx; cases hx
    · intro x sub hx; cases hx
    · intro x sub client hx; cases hx
  · by_cases hh : h = ""
    · subst hh
      have hval : onUpgrade getSubdomain opt manager m (some "") = [Call.socketDestroy] := by
        simp [onUpgrade, truthyStr]
      have hno : ∀ sub, GetClientIdFromHostname getSubdomain opt "" = some sub → sub = "" := by
        intro sub hsub
        rw [hsub] at hempty
        simpa [truthyStr] using hempty
      rw [hval]
      refine ⟨fun client => iff_of_false (fun hm => hd1 ⟨client, hm⟩) ?_,
        iff_of_true (by simp) hd1, by simp, fun _ => rfl, fun _ _ _ => rfl, ?_, ?_⟩
      · rintro ⟨x, sub, hx, hsub, hne, _⟩
        cases Option.some.inj hx
        exact hne (hno sub hsub)
      · intro x sub hx hsub hne _
        cases Option.some.inj hx
        exact absurd (hno sub hsub) hne
      · intro x sub client hx hsub hne _
        cases Option.some.inj hx
        exact absurd (hno sub hsub) hne
    · have hb : (h != "") = true := by simpa using hh
      rcases hc : GetClientIdFromHostname getSubdomain opt h with _ | sub
      · have hval : onUpgrade getSubdomain opt manager m (some h) = [Call.socketDestroy] := by
          simp [onUpgrade, truthyStr, hb, hc]
        rw [hval]
        refine ⟨fun client => iff_of_false (fun hm => hd1 ⟨client, hm⟩) ?_,
          iff_of_true (by simp) hd1, by simp, fun _ => rfl, fun _ _ _ => rfl, ?_, ?_⟩
        · rintro ⟨x, sub, hx, hsub, _⟩
          cases Option.some.inj hx
          rw [hc] at hsub
          cases hsub
        · intro x sub hx hsub
          cases Option.some.inj hx
          rw [hc] at hsub
          cases hsub
        · intro x sub client hx hsub
          cases Option.some.inj hx
          rw [hc] at hsub
          cases hsub
      · by_cases hs : sub = ""
        · subst hs
          have hval : onUpgrade getSubdomain opt manager m (some h) = [Call.socketDestroy] := by
            simp [onUpgrade, truthyStr, hb, hc]
          rw [hval]
          refine ⟨fun client => iff_of_false (fun hm => hd1 ⟨client, hm⟩) ?_,
            iff_of_true (by simp) hd1, by simp, fun _ => rfl, fun _ _ _ => rfl, ?_, ?_⟩
          · rintro ⟨x, sub, hx, hsub, hne, _⟩
            cases Option.some.inj hx
            rw [hc] at hsub
            exact hne (Option.some.inj hsub).symm
          · intro x sub hx hsub hne
            cases Option.some.inj hx
            rw [hc] at hsub
            exact absurd (Option.some.inj hsub).symm hne
          · intro x sub client hx hsub hne
            cases Option.some.inj hx
            rw [hc] at hsub
            exact absurd (Option.some.inj hsub).symm hne
        · have hsb : (sub != "") = true := by simpa using hs
          rcases hg : manager.getClient m sub with _ | client
          · have hval : onUpgrade getSubdomain opt manager m (some h) =
                [Call.getClient sub, Call.socketDestroy] := by
              simp [onUpgrade, truthyStr, hb, hc, hsb, hg]
            rw [hval]
            refine ⟨fun client => iff_of_false (fun hm => hd2 sub ⟨client, hm⟩) ?_,
              iff_of_true (by simp) (hd2 sub), by simp, ?_, ?_, ?_, ?_⟩
            · rintro ⟨x, sub1, hx, hsub, _, hcl⟩
              cases Option.some.inj hx
              rw [hc] at hsub
              cases Option.some.inj hsub
              rw [hg] at hcl
              cases hcl
            · intro hx; cases hx
            · rintro x hx (hsub | hsub)
              · cases Option.some.inj hx
                rw [hc] at hsub
                cases hsub
              · cases Option.some.inj hx
                rw [hc] at hsub
                exact absurd (Option.some.inj hsub) hs
            · intro x sub1 hx hsub _ _
              cases Option.some.inj hx
              rw [hc] at hsub
              cases Option.some.inj hsub
              rfl
            · intro x sub1 client hx hsub _ hcl
              cases Option.some.inj hx
              rw [hc] at hsub
              cases Option.some.inj hsub
              rw [hg] at hcl
              cases hcl
          · have hval : onUpgrade getSubdomain opt manager m (some h) =
                [Call.getClient sub, Call.handleUpgrade client] := by
              simp [onUpgrade, truthyStr, hb, hc, hsb, hg]
            have hsome : ∃ client1 : C,
                Call.handleUpgrade client1 ∈ [Call.getClient sub, Call.handleUpgrade client] :=
              ⟨client, by simp⟩
            rw [hval]
            refine ⟨?_, iff_of_false (by simp) (fun hn => hn hsome), by simp, ?_, ?_, ?_, ?_⟩
            · intro client1
              constructor
              · intro hm
                have e : client1 = client := by simpa using hm
                subst e
                exact ⟨h, sub, rfl, hc, hs, hg⟩
              · rintro ⟨x, sub1, hx, hsub, _, hcl⟩
                cases Option.some.inj hx
                rw [hc] at hsub
                cases Option.some.inj hsub
                rw [hg] at hcl
                cases Option.some.inj hcl
                simp
            · intro hx; cases hx
            · rintro x hx (hsub | hsub)
              · cases Option.some.inj hx
                rw [hc] at hsub
                cases hsub
              · cases Option.some.inj hx
                rw [hc] at hsub
                exact absurd (Option.some.inj hsub) hs
            · intro x sub1 hx hsub _ hcl
              cases Option.some.inj hx
              rw [hc] at hsub
              cases Option.some.inj hsub
              rw [hg] at hcl
              cases hcl
            · intro x sub1 client1 hx hsub _ hcl
              cases Option.some.inj hx
              rw [hc] at hsub
              cases Option.some.inj hsub
              rw [hg] at hcl
              cases Option.some.inj hcl
              rfl

/-- C10 on a registry holding `abcd` and `admin`: an upgrade request for
`abcd.example.com` is passed to the client `abcd`, after the lookup of `abcd`, and
nothing else is called. -/
theorem onUpgrade_dispatch_witness :
    onUpgrade (fun _ h => if h = "abcd.example.com" then some "abcd" else none) {}
        (registryManager 10) ["admin", "abcd"] (some "abcd.example.com") =
      [Call.getClient "abcd", Call.handleUpgrade "abcd"] :=
  (onUpgrade_dispatch (fun _ h => if h = "abcd.example.com" then some "abcd" else none) {}
    (registryManager 10) ["admin", "abcd"] (some "abcd.example.com") (by decide)).2.2.2.2.2.2
    "abcd.example.com" "abcd" "abcd" rfl (by decide) (by decide) (by decide)

end TunnelServer
